import Mathlib

/-
Verification development for the EVM log decoder benchmark repository
(rust-cli/src/main.rs and rust-napi/src/lib.rs).  The two Rust sources
contain byte-for-byte identical core logic (ABI type-string parsing,
event-schema building, event selection, and the per-record decode loop);
the definitions below are a shallow embedding of that shared logic.
Type strings are ASCII in all relevant cases, so Rust byte slicing
(s[4..], s[..len-2]) coincides with character-level slicing used here.
-/

/-- JSON values as handled by serde_json in the sources.  Objects are
modelled as association lists in insertion order; serde_json maps hold
at most one value per key, which the lookup below (first match) and the
insert-with-replace below reflect.  Numbers never matter to the decoder
logic and are carried as integers. -/
inductive Json where
  | null
  | bool (b : Bool)
  | num (n : Int)
  | str (s : String)
  | arr (xs : List Json)
  | obj (kvs : List (String × Json))

/-- Embedding of serde_json Value::get on objects (None on non-objects). -/
def Json.get? : Json → String → Option Json
  | .obj kvs, k => (kvs.find? (fun p => p.1 == k)).map (fun p => p.2)
  | _, _ => none

/-- Embedding of serde_json Value::as_str. -/
def Json.asStr : Json → Option String
  | .str s => some s
  | _ => none

/-- Embedding of serde_json Value::as_array. -/
def Json.asArr : Json → Option (List Json)
  | .arr xs => some xs
  | _ => none

/-- Embedding of serde_json Value::as_bool. -/
def Json.asBool : Json → Option Bool
  | .bool b => some b
  | _ => none

/-- The ethabi ParamType enumeration used by both sources (main.rs line 10,
lib.rs line 9).  The source parser only ever constructs the first eight
constructors; fixedArray and tuple exist in ethabi and are included so that
their absence from parser output can be stated. -/
inductive ParamType where
  | address
  | bool
  | string
  | bytes
  | fixedBytes (n : Nat)
  | uint (n : Nat)
  | int (n : Nat)
  | array (t : ParamType)
  | fixedArray (t : ParamType) (n : Nat)
  | tuple (ts : List ParamType)

/-- Embedding of Rust str::parse::<usize> as used in parse_param_type:
an optional leading plus sign, then one or more ASCII decimal digits,
failing on any other character, on the empty string, and on overflow of
the 64-bit usize range. -/
def parseUsizeChars (cs : List Char) : Option Nat :=
  let ds := match cs with
    | '+' :: rest => rest
    | _ => cs
  if ds.isEmpty then none
  else if ds.all (fun c => c.isDigit) then
    let n := ds.foldl (fun a c => a * 10 + (c.toNat - 48)) 0
    if n < 2 ^ 64 then some n else none
  else none

/-- String-level wrapper for parseUsizeChars, matching Rust s.parse::<usize>(). -/
def parseUsize (s : String) : Option Nat :=
  parseUsizeChars s.data

/-- The first seven match arms of parse_param_type (main.rs lines 175-182,
lib.rs lines 111-118): the four exact keywords and the three prefix-guarded
arms.  Result some r means one of these arms matched and the whole function
returns r; none means control falls through to the array-suffix arm. -/
def baseArms (cs : List Char) : Option (Option ParamType) :=
  if cs = "address".data then some (some .address)
  else if cs = "bool".data then some (some .bool)
  else if cs = "string".data then some (some .string)
  else if cs = "bytes".data then some (some .bytes)
  else if "bytes".data.isPrefixOf cs then
    some ((parseUsizeChars (cs.drop 5)).map ParamType.fixedBytes)
  else if "uint".data.isPrefixOf cs then
    some (some (.uint ((parseUsizeChars (cs.drop 4)).getD 256)))
  else if "int".data.isPrefixOf cs then
    some (some (.int ((parseUsizeChars (cs.drop 3)).getD 256)))
  else none

/-- Recursive core of parse_param_type, operating on the reversed character
list so that the trailing-bracket recursion (main.rs line 183, lib.rs
line 119: ends_with of the two bracket characters, then strip them and
recurse on the prefix) is structural.  The keyword and prefix arms of
baseArms are tried first, exactly as the Rust match does; only when none
of them fires does the bracket-suffix arm run. -/
def pptRev : List Char → Option ParamType
  | [] => (baseArms ([] : List Char)).getD none
  | [c] => (baseArms [c]).getD none
  | c1 :: c2 :: rest =>
    (baseArms (c1 :: c2 :: rest).reverse).getD
      (if c1 = ']' ∧ c2 = '[' then (pptRev rest).map ParamType.array else none)

/-- Embedding of parse_param_type (main.rs lines 174-186, lib.rs lines
110-122). -/
def parse_param_type (s : String) : Option ParamType :=
  pptRev s.data.reverse

/-- Event parameter as in ethabi EventParam (main.rs line 168). -/
structure EventParam where
  name : String
  kind : ParamType
  indexed : Bool

/-- Event schema as in ethabi Event (main.rs line 171). -/
structure Event where
  name : String
  inputs : List EventParam
  anonymous : Bool

/-- Embedding of the inputs loop of parse_event_from_value (main.rs lines
162-169, lib.rs lines 99-106): per input, name defaults to the empty
string, indexed to false, the type string to the empty string; a type
string that fails to parse aborts the whole entry (the Rust return None). -/
def parseInputs : List Json → Option (List EventParam)
  | [] => some []
  | i :: rest =>
    let nameI := ((i.get? "name").bind Json.asStr).getD ""
    let indexed := ((i.get? "indexed").bind Json.asBool).getD false
    let typeStr := ((i.get? "type").bind Json.asStr).getD ""
    match parse_param_type typeStr with
    | none => none
    | some t => (parseInputs rest).map (fun ps => ⟨nameI, t, indexed⟩ :: ps)

/-- Embedding of parse_event_from_value (main.rs lines 157-172, lib.rs
lines 95-108): requires type == "event", a string name and an inputs
array, and always sets anonymous to false. -/
def parse_event_from_value (v : Json) : Option Event :=
  if ((v.get? "type").bind Json.asStr) = some "event" then
    match (v.get? "name").bind Json.asStr with
    | none => none
    | some name =>
      match (v.get? "inputs").bind Json.asArr with
      | none => none
      | some inputsV => (parseInputs inputsV).map (fun inputs => ⟨name, inputs, false⟩)
  else none

/-- Schema-stage errors of load_event (main.rs lines 135, 138, 145, 151). -/
inductive SchemaError where
  | unsupportedStructure
  | emptyAbi
  | eventNotFound (name : String)

/-- Embedding of the events-collection stage of load_event (main.rs lines
120-139, lib.rs lines 76-85): a top-level array, or an object whose abi
or events field is an array, yields the filter-mapped event list; any
other shape is the unsupported-structure error. -/
def collectEvents (j : Json) : Except SchemaError (List Event) :=
  match j with
  | .arr xs => .ok (xs.filterMap parse_event_from_value)
  | .obj kvs =>
    match (Json.get? (.obj kvs) "abi").bind Json.asArr with
    | some xs => .ok (xs.filterMap parse_event_from_value)
    | none =>
      match (Json.get? (.obj kvs) "events").bind Json.asArr with
      | some xs => .ok (xs.filterMap parse_event_from_value)
      | none => .error .unsupportedStructure
  | _ => .error .unsupportedStructure

/-- Characterization used to state when collectEvents succeeds: the entry
list the source extracts, if any (array body, else the abi field as an
array, else the events field as an array; objects only). -/
def entriesOf (j : Json) : Option (List Json) :=
  match j with
  | .arr xs => some xs
  | .obj kvs =>
    match (Json.get? (.obj kvs) "abi").bind Json.asArr with
    | some xs => some xs
    | none => (Json.get? (.obj kvs) "events").bind Json.asArr
  | _ => none

/-- Embedding of load_event's selection stage (main.rs lines 141-154,
lib.rs lines 87-92): an empty requested name selects the first event or
fails with emptyAbi; a nonempty name selects the first event with that
name or fails with eventNotFound. -/
def load_event (j : Json) (eventName : String) : Except SchemaError (Event × List Event) :=
  match collectEvents j with
  | .error e => .error e
  | .ok events =>
    if eventName = "" then
      match events.head? with
      | some e => .ok (e, events)
      | none => .error .emptyAbi
    else
      match events.find? (fun e => e.name == eventName) with
      | some e => .ok (e, events)
      | none => .error (.eventNotFound eventName)

/-- HashMap insert semantics (std HashMap::insert replaces the value of an
existing key); the map is carried as an association list with at most one
entry per key.  Topic words (H256) are abstracted as natural numbers since
the sources use them only for equality and hashing. -/
def insertKV (m : List (Nat × Event)) (k : Nat) (v : Event) : List (Nat × Event) :=
  if m.any (fun p => p.1 == k) then
    m.map (fun p => if p.1 == k then (k, v) else p)
  else m ++ [(k, v)]

/-- HashMap lookup on the association-list model. -/
def lookupKV (m : List (Nat × Event)) (k : Nat) : Option Event :=
  (m.find? (fun p => p.1 == k)).map (fun p => p.2)

/-- Embedding of the dispatch-map construction (main.rs lines 49-53, lib.rs
lines 29-31): insert every loaded event keyed by its signature hash.  The
signature hash itself is computed by the external ethabi crate
(Event::signature, keccak-256 of the canonical signature) and is abstracted
as a parameter. -/
def buildSigMap (sig : Event → Nat) (events : List Event) : List (Nat × Event) :=
  events.foldl (fun m ev => insertKV m (sig ev) ev) []

/-- Embedding of the mode choice (main.rs lines 47-55, lib.rs lines 27-32):
the topic0 dispatch map exists exactly when the caller supplied no event
name. -/
def buildDispatch (eventArg : Option String) (sig : Event → Nat) (events : List Event) :
    Option (List (Nat × Event)) :=
  match eventArg with
  | none => some (buildSigMap sig events)
  | some _ => none

/-- Per-record decode errors surfaced by the loop. -/
inductive DecodeError where
  | unknownTopic0
  | topicCountMismatch

/-- Embedding of the per-record event choice (main.rs lines 78-84, lib.rs
lines 58-60): dispatch mode consults the map by the first topic and fails
on a miss; named mode always uses the pre-selected event. -/
def chooseEvent (dispatch : Option (List (Nat × Event))) (selected : Event) (t0 : Nat) :
    Except DecodeError Event :=
  match dispatch with
  | some m =>
    match lookupKV m t0 with
    | some ev => .ok ev
    | none => .error .unknownTopic0
  | none => .ok selected

/-- Number of indexed parameters of a schema. -/
def indexedCount (ev : Event) : Nat :=
  (ev.inputs.filter (fun p => p.indexed)).length

/-- Modelled from the spec: the token decoder (ethabi Event::parse_log,
called at main.rs line 92 and lib.rs line 64) is provided by the external
ethabi crate and is not under src/; only its topic-count precondition
(spec section 4.4) is modelled here: the number of topics must equal one
plus the indexed-parameter count for a non-anonymous schema (exactly the
indexed-parameter count for an anonymous one), otherwise decoding the
record fails with a topic-count mismatch.  Successful decoding of the
payload is abstracted. -/
def parse_log_topicCheck (ev : Event) (topics : List Nat) : Except DecodeError Unit :=
  if topics.length = (if ev.anonymous then 0 else 1) + indexedCount ev then .ok ()
  else .error .topicCountMismatch

/-- Outcome of the loop body for one input record. -/
inductive RecordOutcome where
  | skipped
  | decoded (ev : Event)
  | failed (e : DecodeError)

/-- Embedding of the per-record loop body after hex parsing (main.rs lines
76-95, lib.rs lines 56-65): a record with an empty topics list is skipped
with continue; otherwise the event is chosen by mode and the record is
decoded against it, errors aborting the record. -/
def processRecord (dispatch : Option (List (Nat × Event))) (selected : Event)
    (topics : List Nat) : RecordOutcome :=
  match topics with
  | [] => .skipped
  | t0 :: _ =>
    match chooseEvent dispatch selected t0 with
    | .error e => .failed e
    | .ok ev =>
      match parse_log_topicCheck ev topics with
      | .error e => .failed e
      | .ok _ => .decoded ev

/-- The ethabi Token enumeration as consumed by token_to_json (main.rs
lines 200-212).  Byte values are Fin 256 mirroring u8; the unsigned and
signed 256-bit integers are both carried by ethabi as 256-bit words whose
Display is the unsigned decimal rendering, modelled as Nat. -/
inductive Token where
  | address (a : List (Fin 256))
  | uint (n : Nat)
  | int (n : Nat)
  | bool (b : Bool)
  | fixedBytes (b : List (Fin 256))
  | bytes (b : List (Fin 256))
  | string (s : String)
  | array (ts : List Token)
  | fixedArray (ts : List Token)
  | tuple (ts : List Token)

/-- Lowercase hexadecimal digit character, as produced by hex::encode. -/
def hexDigitChar (n : Nat) : Char :=
  if n < 10 then Char.ofNat (48 + n) else Char.ofNat (87 + n)

/-- Embedding of hex::encode: two lowercase hex digits per byte, high
nibble first. -/
def hexEncode (bs : List (Fin 256)) : String :=
  String.mk (bs.foldr (fun b acc => hexDigitChar (b.val / 16) :: hexDigitChar (b.val % 16) :: acc) [])

mutual

/-- Embedding of token_to_json (main.rs lines 200-212). -/
def token_to_json : Token → Json
  | .address a => .str ("0x" ++ hexEncode a)
  | .uint n => .str (Nat.repr n)
  | .int n => .str (Nat.repr n)
  | .bool b => .bool b
  | .fixedBytes b => .str ("0x" ++ hexEncode b)
  | .bytes b => .str ("0x" ++ hexEncode b)
  | .string s => .str s
  | .array ts => .arr (tokenListToJson ts)
  | .tuple ts => .arr (tokenListToJson ts)
  | .fixedArray ts => .arr (tokenListToJson ts)

/-- Elementwise projection of a token list (the iterator maps inside the
array, tuple and fixed-array arms of token_to_json). -/
def tokenListToJson : List Token → List Json
  | [] => []
  | t :: ts => token_to_json t :: tokenListToJson ts

end

/-- serde_json Map::insert semantics on the association-list model of a
JSON object: replace the value of an existing key, else append. -/
def mapInsert (m : List (String × Json)) (k : String) (v : Json) : List (String × Json) :=
  if m.any (fun p => p.1 == k) then
    m.map (fun p => if p.1 == k then (k, v) else p)
  else m ++ [(k, v)]

/-- The object key chosen for the token at position i (main.rs lines
217-218): the parameter name at that position, or argN when the position
has no parameter or an empty name. -/
def argKey (inputs : List EventParam) (i : Nat) : String :=
  let name := ((inputs[i]?).map EventParam.name).getD ""
  if name = "" then "arg" ++ Nat.repr i else name

/-- Embedding of tokens_to_json (main.rs lines 214-222): fold the indexed
token list into a JSON object. -/
def tokens_to_json (inputs : List EventParam) (tokens : List Token) : Json :=
  Json.obj ((tokens.enum).foldl (fun m p => mapInsert m (argKey inputs p.1) (token_to_json p.2)) [])

/-- A concrete ABI event entry whose single input is a tuple with a
components array, in the shape described by the spec for tuple inputs. -/
def tupleEntryExample : Json :=
  Json.obj
    [("type", .str "event"),
     ("name", .str "E"),
     ("inputs", .arr
       [Json.obj
         [("name", .str "a"),
          ("type", .str "tuple"),
          ("components", .arr [Json.obj [("name", .str "x"), ("type", .str "uint256")]])]])]

/-- The uint arm of baseArms fires on any character list starting with the
four uint keyword characters, independently of the suffix. -/
theorem baseArms_uint (suf : List Char) :
    baseArms ('u' :: 'i' :: 'n' :: 't' :: suf) =
      some (some (.uint ((parseUsizeChars suf).getD 256))) := by
  simp [baseArms, List.isPrefixOf]

/-- The int arm of baseArms fires on any character list starting with the
three int keyword characters, independently of the suffix. -/
theorem baseArms_int (suf : List Char) :
    baseArms ('i' :: 'n' :: 't' :: suf) =
      some (some (.int ((parseUsizeChars suf).getD 256))) := by
  simp [baseArms, List.isPrefixOf]

/-- The fixed-bytes arm of baseArms fires on any character list starting
with the five bytes keyword characters followed by a nonempty suffix. -/
theorem baseArms_bytes (suf : List Char) (h : suf ≠ []) :
    baseArms ('b' :: 'y' :: 't' :: 'e' :: 's' :: suf) =
      some ((parseUsizeChars suf).map ParamType.fixedBytes) := by
  simp [baseArms, List.isPrefixOf, h]

/-- When one of the keyword or prefix arms matches, pptRev returns its
result and the bracket-suffix arm is never consulted. -/
theorem pptRev_base (rcs : List Char) (r : Option ParamType)
    (h : baseArms rcs.reverse = some r) : pptRev rcs = r := by
  match rcs with
  | [] =>
    rw [pptRev]
    rw [List.reverse_nil] at h
    rw [h]
    rfl
  | [c] =>
    rw [pptRev]
    rw [show ([c] : List Char).reverse = [c] from rfl] at h
    rw [h]
    rfl
  | c1 :: c2 :: rest =>
    rw [pptRev, h]
    rfl

/-- When no keyword or prefix arm matches and the reversed input starts
with the closing-opening bracket pair, pptRev recurses on the remainder
and wraps the result in the array constructor. -/
theorem pptRev_fallthrough (rest : List Char)
    (h : baseArms (']' :: '[' :: rest).reverse = none) :
    pptRev (']' :: '[' :: rest) = (pptRev rest).map ParamType.array := by
  rw [pptRev, h, Option.getD_none, if_pos ⟨rfl, rfl⟩]

/-- Any string starting with the uint keyword parses to Uint of the parsed
suffix, defaulting to 256 when the suffix is not a valid usize. -/
theorem uint_arm (suf : String) :
    parse_param_type ("uint" ++ suf) = some (.uint ((parseUsize suf).getD 256)) := by
  have hd : ("uint" ++ suf).data = 'u' :: 'i' :: 'n' :: 't' :: suf.data := by
    simp [String.data_append]
  rw [parse_param_type]
  apply pptRev_base
  rw [List.reverse_reverse, hd, baseArms_uint, parseUsize]

/-- Any string starting with the int keyword (other than ones caught by the
earlier arms, which is impossible for this head character) parses to Int of
the parsed suffix, defaulting to 256. -/
theorem int_arm (suf : String) :
    parse_param_type ("int" ++ suf) = some (.int ((parseUsize suf).getD 256)) := by
  have hd : ("int" ++ suf).data = 'i' :: 'n' :: 't' :: suf.data := by
    simp [String.data_append]
  rw [parse_param_type]
  apply pptRev_base
  rw [List.reverse_reverse, hd, baseArms_int, parseUsize]

/-- Any string that is the bytes keyword followed by a nonempty suffix
parses to FixedBytes of the parsed suffix, failing only when the suffix is
not a valid usize and with no range restriction on the value. -/
theorem bytes_arm (suf : String) (h : suf ≠ "") :
    parse_param_type ("bytes" ++ suf) = (parseUsize suf).map ParamType.fixedBytes := by
  have hne : suf.data ≠ [] := by
    intro hd
    apply h
    cases suf
    simp_all
  have hd : ("bytes" ++ suf).data = 'b' :: 'y' :: 't' :: 'e' :: 's' :: suf.data := by
    simp [String.data_append]
  rw [parse_param_type]
  apply pptRev_base
  rw [List.reverse_reverse, hd, baseArms_bytes _ hne, parseUsize]

/-- A string ending in the bracket pair on which all keyword and prefix
arms fail parses as the array of the recursively parsed prefix. -/
theorem array_arm (pre : String) (h : baseArms (pre ++ "[]").data = none) :
    parse_param_type (pre ++ "[]") = (parse_param_type pre).map ParamType.array := by
  have hrev : (pre ++ "[]").data.reverse = ']' :: '[' :: pre.data.reverse := by
    simp [String.data_append]
  rw [parse_param_type, hrev, pptRev_fallthrough, parse_param_type]
  rw [← hrev, List.reverse_reverse]
  exact h

/-- No keyword or prefix arm ever produces a fixed-size array descriptor. -/
theorem baseArms_not_fixedArray (cs : List Char) (r : Option ParamType)
    (h : baseArms cs = some r) (t : ParamType) (n : Nat) :
    r ≠ some (.fixedArray t n) := by
  unfold baseArms at h
  split_ifs at h <;> injection h with h <;> subst h
  case _ => simp
  case _ => simp
  case _ => simp
  case _ => simp
  case _ => cases parseUsizeChars (cs.drop 5) <;> simp
  case _ => simp
  case _ => simp

/-- The type parser never produces a fixed-size array descriptor. -/
theorem pptRev_not_fixedArray (rcs : List Char) (t : ParamType) (n : Nat) :
    pptRev rcs ≠ some (.fixedArray t n) := by
  cases hb : baseArms rcs.reverse with
  | some r =>
    rw [pptRev_base _ _ hb]
    exact baseArms_not_fixedArray _ _ hb t n
  | none =>
    match rcs with
    | [] =>
      rw [pptRev]
      rw [List.reverse_nil] at hb
      rw [hb]
      simp
    | [c] =>
      rw [pptRev]
      rw [show ([c] : List Char).reverse = [c] from rfl] at hb
      rw [hb]
      simp
    | c1 :: c2 :: rest =>
      rw [pptRev, hb, Option.getD_none]
      split_ifs
      · cases pptRev rest <;> simp
      · simp

/-- C1: amended.  The rightmost-bracket peeling arm of the type parser is
the last match arm, so it only applies to strings on which every keyword
and prefix arm fails (baseArms is none); for those strings a trailing
bracket pair parses as Array of the recursively parsed prefix.  The parser
has no fixed-array arm at all and never returns FixedArray; strings with a
uint or int prefix are consumed by the width arms, so uint256 with one or
two bracket groups appended parses as Uint(256), not as an array type. -/
theorem c1_array_suffix_behavior :
    (∀ pre : String, baseArms (pre ++ "[]").data = none →
      parse_param_type (pre ++ "[]") = (parse_param_type pre).map ParamType.array)
    ∧ (∀ (s : String) (t : ParamType) (n : Nat),
        parse_param_type s ≠ some (.fixedArray t n))
    ∧ parse_param_type "uint256[]" = some (.uint 256)
    ∧ parse_param_type "uint256[][3]" = some (.uint 256) :=
  ⟨array_arm, fun _ t n => pptRev_not_fixedArray _ t n, rfl, rfl⟩

/-- C1: counterexample.  Contrary to the claim, uint256 followed by a
bracket pair does not parse to Array(Uint(256)), and uint256 followed by
an unbounded-then-fixed bracket group does not parse to
FixedArray(Array(Uint(256)), 3). -/
theorem c1_counterexample :
    parse_param_type "uint256[]" ≠ some (ParamType.array (.uint 256))
    ∧ parse_param_type "uint256[][3]" ≠ some (ParamType.fixedArray (.array (.uint 256)) 3) := by
  constructor
  · have h : parse_param_type "uint256[]" = some (.uint 256) := rfl
    rw [h]
    simp
  · have h : parse_param_type "uint256[][3]" = some (.uint 256) := rfl
    rw [h]
    simp

/-- C1: witness for the amended theorem at a concrete input on which the
keyword arms all fail. -/
theorem c1_witness :
    parse_param_type ("bool" ++ "[]") = (parse_param_type "bool").map ParamType.array :=
  c1_array_suffix_behavior.1 "bool" (by rfl)

/-- C2: amended.  The width arms accept any string starting with uint or
int: a suffix that parses as a usize becomes the bit width with no
multiple-of-8 or upper-bound validation, and any other suffix (including
the empty one) defaults the width to 256.  In particular uint7, uint0 and
uint512 all parse successfully rather than failing. -/
theorem c2_bit_width_unchecked :
    (∀ suf : String, parse_param_type ("uint" ++ suf) = some (.uint ((parseUsize suf).getD 256)))
    ∧ (∀ suf : String, parse_param_type ("int" ++ suf) = some (.int ((parseUsize suf).getD 256)))
    ∧ parse_param_type "uint" = some (.uint 256)
    ∧ parse_param_type "int" = some (.int 256)
    ∧ parse_param_type "uint7" = some (.uint 7)
    ∧ parse_param_type "uint0" = some (.uint 0)
    ∧ parse_param_type "uint512" = some (.uint 512) :=
  ⟨uint_arm, int_arm, rfl, rfl, rfl, rfl, rfl⟩

/-- C2: counterexample.  Contrary to the claim, uint7 does not fail with a
parse error: it parses to Uint(7). -/
theorem c2_counterexample :
    parse_param_type "uint7" = some (ParamType.uint 7)
    ∧ parse_param_type "uint7" ≠ none := by
  constructor
  · rfl
  · have h : parse_param_type "uint7" = some (.uint 7) := rfl
    rw [h]
    simp

/-- C3: amended.  The bytes arm parses any nonempty suffix of the bytes
keyword as a usize and wraps it in FixedBytes with no range check, so
FixedBytes(0) and FixedBytes(33) are produced; only a suffix that is not a
valid usize makes the parse fail. -/
theorem c3_fixed_bytes_unchecked :
    (∀ suf : String, suf ≠ "" →
      parse_param_type ("bytes" ++ suf) = (parseUsize suf).map ParamType.fixedBytes)
    ∧ parse_param_type "bytes0" = some (.fixedBytes 0)
    ∧ parse_param_type "bytes33" = some (.fixedBytes 33) :=
  ⟨bytes_arm, rfl, rfl⟩

/-- C3: counterexample.  Contrary to the claim, bytes0 and bytes33 do not
fail: they parse to FixedBytes(0) and FixedBytes(33), violating the stated
1..=32 invariant. -/
theorem c3_counterexample :
    parse_param_type "bytes0" = some (ParamType.fixedBytes 0)
    ∧ parse_param_type "bytes33" ≠ none := by
  constructor
  · rfl
  · have h : parse_param_type "bytes33" = some (.fixedBytes 33) := rfl
    rw [h]
    simp

/-- C3: witness for the amended theorem at a concrete nonempty suffix. -/
theorem c3_witness :
    parse_param_type ("bytes" ++ "32") = (parseUsize "32").map ParamType.fixedBytes :=
  c3_fixed_bytes_unchecked.1 "32" (by decide)

/-- An inputs list containing an entry whose type string fails to parse
makes the whole inputs loop fail (the Rust return None inside the loop). -/
theorem parseInputs_none (l : List Json) (i : Json) (hi : i ∈ l)
    (hp : parse_param_type (((i.get? "type").bind Json.asStr).getD "") = none) :
    parseInputs l = none := by
  induction l with
  | nil => cases hi
  | cons a rest ih =>
    rw [parseInputs]
    rcases List.mem_cons.mp hi with h | h
    · subst h
      simp [hp]
    · have hr := ih h
      cases hpa : parse_param_type (((a.get? "type").bind Json.asStr).getD "") <;>
        simp [hpa, hr]

/-- C4: amended.  The type parser has no tuple arm: both the tuple spelling
and its array form fail to parse, and parse_event_from_value ignores any
components array, so an ABI event entry with a tuple-typed input is dropped
from the result rather than resolved into a Tuple descriptor. -/
theorem c4_tuple_entries_dropped :
    parse_param_type "tuple" = none
    ∧ parse_param_type "tuple[]" = none
    ∧ (∀ (v : Json) (l : List Json) (i : Json),
        (v.get? "inputs").bind Json.asArr = some l → i ∈ l →
        parse_param_type (((i.get? "type").bind Json.asStr).getD "") = none →
        parse_event_from_value v = none) := by
  refine ⟨rfl, rfl, ?_⟩
  intro v l i hl hi hp
  rw [parse_event_from_value]
  split_ifs with ht
  · cases hn : (v.get? "name").bind Json.asStr <;>
      simp [hn, hl, parseInputs_none l i hi hp]
  · rfl

/-- C4: counterexample.  A concrete event entry whose single input has the
tuple type string and a components array is dropped by the schema builder:
parse_event_from_value rejects it and the entry contributes no event to the
collected list. -/
theorem c4_counterexample :
    parse_event_from_value tupleEntryExample = none
    ∧ collectEvents (Json.arr [tupleEntryExample]) = Except.ok [] :=
  ⟨rfl, rfl⟩

/-- C4: witness for the amended theorem at the concrete tuple entry. -/
theorem c4_witness :
    parse_event_from_value tupleEntryExample = none :=
  c4_tuple_entries_dropped.2.2 tupleEntryExample
    [Json.obj
      [("name", .str "a"),
       ("type", .str "tuple"),
       ("components", .arr [Json.obj [("name", .str "x"), ("type", .str "uint256")]])]]
    (Json.obj
      [("name", .str "a"),
       ("type", .str "tuple"),
       ("components", .arr [Json.obj [("name", .str "x"), ("type", .str "uint256")]])])
    (by rfl) (by simp) (by rfl)

/-- C5: amended.  A record whose topics list is empty is silently skipped
by the loop (the continue at main.rs line 76 and lib.rs line 56), producing
no error; only a record with a nonempty topics list reaches the decoder,
and in named mode such a record whose topic count differs from one plus
the schema's indexed-parameter count fails with the topic-count-mismatch
error rather than being skipped. -/
theorem c5_empty_topics_skipped :
    (∀ (dispatch : Option (List (Nat × Event))) (sel : Event),
        processRecord dispatch sel [] = .skipped)
    ∧ (∀ (sel : Event) (topics : List Nat), topics ≠ [] → sel.anonymous = false →
        topics.length ≠ 1 + indexedCount sel →
        processRecord none sel topics = .failed .topicCountMismatch) := by
  constructor
  · intro dispatch sel
    rfl
  · intro sel topics hne hanon hlen
    cases topics with
    | nil => exact absurd rfl hne
    | cons t0 rest =>
      simp only [List.length_cons] at hlen
      simp [processRecord, chooseEvent, parse_log_topicCheck, hanon, hlen]

/-- C5: counterexample.  A concrete record with an empty topics list,
decoded in named mode against a schema with one indexed parameter, is
skipped rather than failing with a topic-count-mismatch error. -/
theorem c5_counterexample :
    processRecord none ⟨"Transfer", [⟨"from", ParamType.address, true⟩], false⟩ []
      = RecordOutcome.skipped :=
  rfl

/-- C5: witness for the amended theorem: a one-topic record against a
schema requiring two topic words fails with the mismatch error. -/
theorem c5_witness :
    processRecord none ⟨"Transfer", [⟨"from", ParamType.address, true⟩], false⟩ [5]
      = RecordOutcome.failed .topicCountMismatch :=
  c5_empty_topics_skipped.2 ⟨"Transfer", [⟨"from", ParamType.address, true⟩], false⟩ [5]
    (by simp) rfl (by decide)

/-- C9: confirmed.  The dispatch map exists exactly when no event name was
supplied; in named mode every record is decoded against the pre-selected
schema and the outcome does not depend on the first topic value, and an
unknown-topic0 error can only arise when the dispatch map is present. -/
theorem c9_named_mode_ignores_topic0 :
    (∀ (name : String) (sig : Event → Nat) (events : List Event),
        buildDispatch (some name) sig events = none)
    ∧ (∀ (sig : Event → Nat) (events : List Event),
        buildDispatch none sig events = some (buildSigMap sig events))
    ∧ (∀ (sel : Event) (t0 : Nat), chooseEvent none sel t0 = .ok sel)
    ∧ (∀ (sel : Event) (t0 t0' : Nat) (rest : List Nat),
        processRecord none sel (t0 :: rest) = processRecord none sel (t0' :: rest))
    ∧ (∀ (dispatch : Option (List (Nat × Event))) (sel : Event) (t0 : Nat),
        chooseEvent dispatch sel t0 = .error .unknownTopic0 → dispatch ≠ none) := by
  refine ⟨fun _ _ _ => rfl, fun _ _ => rfl, fun _ _ => rfl, ?_, ?_⟩
  · intro sel t0 t0' rest
    simp [processRecord, chooseEvent, parse_log_topicCheck]
  · intro dispatch sel t0 h hd
    subst hd
    exact absurd h (by simp [chooseEvent])

/-- C9: witness: the unknown-topic0 conjunct applied at a concrete
dispatch map (the empty map, on which every lookup misses). -/
theorem c9_witness :
    (some ([] : List (Nat × Event))) ≠ (none : Option (List (Nat × Event))) :=
  c9_named_mode_ignores_topic0.2.2.2.2 (some []) ⟨"E", [], false⟩ 0 rfl

/-- A predicate holding of the first element of a concatenation whose
prefix contains no match is found by find? at exactly that element. -/
theorem find?_first {α : Type} (p : α → Bool) (pre : List α) (e : α) (post : List α)
    (he : p e = true) (hpre : ∀ x ∈ pre, p x = false) :
    (pre ++ e :: post).find? p = some e := by
  induction pre with
  | nil => simp [List.find?_cons_of_pos, he]
  | cons a pre ih =>
    have ha := hpre a (by simp)
    rw [List.cons_append, List.find?_cons_of_neg]
    · exact ih (fun x hx => hpre x (by simp [hx]))
    · simp [ha]

/-- C6: confirmed.  With a nonempty requested name, load_event returns the
first collected event whose name matches and the whole event list, and
fails with eventNotFound when no name matches; with an empty requested
name it fails with emptyAbi exactly when the collected event list is
empty. -/
theorem c6_event_selection :
    (∀ (j : Json) (events pre post : List Event) (e : Event) (name : String),
        collectEvents j = .ok events → name ≠ "" →
        events = pre ++ e :: post → e.name = name → (∀ x ∈ pre, x.name ≠ name) →
        load_event j name = .ok (e, events))
    ∧ (∀ (j : Json) (events : List Event) (name : String),
        collectEvents j = .ok events → name ≠ "" →
        (∀ x ∈ events, x.name ≠ name) →
        load_event j name = .error (.eventNotFound name))
    ∧ (∀ (j : Json) (events : List Event),
        collectEvents j = .ok events →
        (load_event j "" = .error .emptyAbi ↔ events = [])) := by
  refine ⟨?_, ?_, ?_⟩
  · intro j events pre post e name hc hname hsplit he hpre
    have hfind : List.find? (fun x => x.name == name) events = some e := by
      rw [hsplit]
      exact find?_first _ pre e post (beq_iff_eq.mpr he)
        (fun x hx => beq_eq_false_iff_ne.mpr (hpre x hx))
    simp only [load_event, hc]
    rw [if_neg hname, hfind]
  · intro j events name hc hname hnone
    have hfind : List.find? (fun x => x.name == name) events = none :=
      List.find?_eq_none.mpr (fun x hx => by simp [hnone x hx])
    simp only [load_event, hc]
    rw [if_neg hname, hfind]
  · intro j events hc
    simp only [load_event, hc]
    rw [if_pos trivial]
    cases events <;> simp

/-- C6: witness at a concrete ABI with two events sharing structure: the
requested name selects the first match in load order, and the empty-name
iff holds on the empty ABI. -/
theorem c6_witness :
    load_event (Json.arr
      [Json.obj [("type", .str "event"), ("name", .str "A"), ("inputs", .arr [])],
       Json.obj [("type", .str "event"), ("name", .str "B"), ("inputs", .arr [])]]) "B"
      = .ok (⟨"B", [], false⟩,
          [⟨"A", [], false⟩, ⟨"B", [], false⟩]) :=
  c6_event_selection.1 _ [⟨"A", [], false⟩, ⟨"B", [], false⟩]
    [⟨"A", [], false⟩] [] ⟨"B", [], false⟩ "B"
    (by rfl) (by decide) (by rfl) (by rfl) (by decide)

/-- C7: confirmed.  Building the event list fails exactly when the
top-level JSON is neither an array nor an object with an abi or events
array field; in every other case the build succeeds and returns the
filter-mapped entries, dropping exactly those whose parse fails; the only
failure value is the unsupported-structure error. -/
theorem c7_structure_errors (j : Json) :
    (collectEvents j = .error .unsupportedStructure ↔ entriesOf j = none)
    ∧ (∀ xs, entriesOf j = some xs →
        collectEvents j = .ok (xs.filterMap parse_event_from_value))
    ∧ (∀ e, collectEvents j = .error e → e = .unsupportedStructure)
    ∧ (∀ v, ((v.get? "type").bind Json.asStr) ≠ some "event" →
        parse_event_from_value v = none) := by
  refine ⟨?_, ?_, ?_, fun v hv => by rw [parse_event_from_value, if_neg hv]⟩ <;>
  cases j with
  | obj kvs =>
    cases h1 : (Json.get? (.obj kvs) "abi").bind Json.asArr with
    | some xs => simp [collectEvents, entriesOf, h1]
    | none =>
      cases h2 : (Json.get? (.obj kvs) "events").bind Json.asArr with
      | some xs => simp [collectEvents, entriesOf, h1, h2]
      | none => simp [collectEvents, entriesOf, h1, h2]
  | arr xs => simp [collectEvents, entriesOf]
  | null => simp [collectEvents, entriesOf]
  | bool b => simp [collectEvents, entriesOf]
  | num n => simp [collectEvents, entriesOf]
  | str s => simp [collectEvents, entriesOf]

/-- C7: witness: the empty top-level array builds successfully. -/
theorem c7_witness :
    collectEvents (Json.arr []) = .ok (List.filterMap parse_event_from_value []) :=
  (c7_structure_errors (Json.arr [])).2.1 [] rfl

/-- The elementwise token projection agrees with mapping token_to_json. -/
theorem tokenListToJson_eq_map (ts : List Token) :
    tokenListToJson ts = ts.map token_to_json := by
  induction ts with
  | nil => rfl
  | cons t ts ih => rw [tokenListToJson, ih, List.map_cons]

/-- Inserting a key absent from the map appends the new pair. -/
theorem mapInsert_fresh (m : List (String × Json)) (k : String) (v : Json)
    (h : ∀ p ∈ m, p.1 ≠ k) : mapInsert m k v = m ++ [(k, v)] := by
  rw [mapInsert, if_neg]
  intro hany
  rw [List.any_eq_true] at hany
  obtain ⟨p, hp, hb⟩ := hany
  exact h p hp (by simpa using hb)

/-- Folding map inserts over pairwise-fresh keys appends the pairs in
order. -/
theorem foldl_mapInsert_eq_append (ps : List (String × Json)) (acc : List (String × Json))
    (h : ((acc ++ ps).map Prod.fst).Nodup) :
    ps.foldl (fun m q => mapInsert m q.1 q.2) acc = acc ++ ps := by
  induction ps generalizing acc with
  | nil => simp
  | cons q ps ih =>
    rw [List.foldl_cons]
    have hq : ∀ p ∈ acc, p.1 ≠ q.1 := by
      intro p hp heq
      rw [List.map_append, List.nodup_append] at h
      exact h.2.2 (List.mem_map.mpr ⟨p, hp, rfl⟩) (by simp [heq])
    rw [mapInsert_fresh _ _ _ hq]
    have h' : (((acc ++ [q]) ++ ps).map Prod.fst).Nodup := by
      rw [List.append_assoc]
      simpa using h
    rw [ih _ h', List.append_assoc]
    rfl

/-- Each lowercase hex digit character is a decimal digit or one of the
six lowercase letters. -/
theorem hexDigitChar_range (n : Nat) (h : n < 16) :
    ('0' ≤ hexDigitChar n ∧ hexDigitChar n ≤ '9')
    ∨ ('a' ≤ hexDigitChar n ∧ hexDigitChar n ≤ 'f') := by
  interval_cases n <;> decide

/-- Every character produced by the hex encoder is a decimal digit or a
lowercase letter between a and f. -/
theorem hexEncode_chars (bs : List (Fin 256)) (c : Char) (hc : c ∈ (hexEncode bs).data) :
    ('0' ≤ c ∧ c ≤ '9') ∨ ('a' ≤ c ∧ c ≤ 'f') := by
  rw [show (hexEncode bs).data
      = bs.foldr (fun b acc => hexDigitChar (b.val / 16) :: hexDigitChar (b.val % 16) :: acc) []
      from rfl] at hc
  induction bs with
  | nil => cases hc
  | cons b bs ih =>
    rw [List.foldr_cons] at hc
    rcases List.mem_cons.mp hc with h | h
    · subst h
      exact hexDigitChar_range _ (Nat.div_lt_of_lt_mul b.isLt)
    · rcases List.mem_cons.mp h with h2 | h2
      · subst h2
        exact hexDigitChar_range _ (Nat.mod_lt _ (by norm_num))
      · exact ih h2

/-- C8: confirmed.  When the generated keys are pairwise distinct, the
projection is the JSON object pairing each token's key (the parameter name
at its position, or argN for a missing or empty name) with its projected
value; unsigned and signed integers project to decimal strings and never to
JSON numbers, addresses and byte strings to lowercase hex strings behind a
0x prefix, booleans to JSON booleans, strings verbatim, and the three
aggregate token forms to JSON arrays of recursively projected elements. -/
theorem c8_projection :
    (∀ (inputs : List EventParam) (tokens : List Token),
        (((tokens.enum).map (fun p => argKey inputs p.1)).Nodup) →
        tokens_to_json inputs tokens =
          Json.obj ((tokens.enum).map (fun p => (argKey inputs p.1, token_to_json p.2))))
    ∧ (∀ n, token_to_json (.uint n) = .str (Nat.repr n))
    ∧ (∀ n, token_to_json (.int n) = .str (Nat.repr n))
    ∧ (∀ n q, token_to_json (.uint n) ≠ .num q)
    ∧ (∀ a, token_to_json (.address a) = .str ("0x" ++ hexEncode a))
    ∧ (∀ bs, token_to_json (.bytes bs) = .str ("0x" ++ hexEncode bs)
        ∧ token_to_json (.fixedBytes bs) = .str ("0x" ++ hexEncode bs))
    ∧ (∀ b, token_to_json (.bool b) = .bool b)
    ∧ (∀ s, token_to_json (.string s) = .str s)
    ∧ (∀ ts, token_to_json (.array ts) = .arr (ts.map token_to_json)
        ∧ token_to_json (.tuple ts) = .arr (ts.map token_to_json)
        ∧ token_to_json (.fixedArray ts) = .arr (ts.map token_to_json))
    ∧ (∀ bs, ∀ c ∈ (hexEncode bs).data,
        ('0' ≤ c ∧ c ≤ '9') ∨ ('a' ≤ c ∧ c ≤ 'f')) := by
  refine ⟨?_, fun n => rfl, fun n => rfl, fun n q => by simp [token_to_json],
    fun a => rfl,
    fun bs => ⟨rfl, rfl⟩, fun b => rfl, fun s => rfl,
    fun ts => ⟨by rw [token_to_json, tokenListToJson_eq_map],
      by rw [token_to_json, tokenListToJson_eq_map],
      by rw [token_to_json, tokenListToJson_eq_map]⟩,
    fun bs c hc => hexEncode_chars bs c hc⟩
  intro inputs tokens hnodup
  rw [tokens_to_json]
  have hfm : (tokens.enum).foldl (fun m p => mapInsert m (argKey inputs p.1) (token_to_json p.2)) []
      = ((tokens.enum).map (fun p => (argKey inputs p.1, token_to_json p.2))).foldl
          (fun m q => mapInsert m q.1 q.2) [] := by
    rw [List.foldl_map]
  rw [hfm, foldl_mapInsert_eq_append _ [] (by simpa [List.map_map, Function.comp] using hnodup)]
  rfl

/-- C8: witness for the distinct-keys projection at a concrete schema and
token list. -/
theorem c8_witness :
    tokens_to_json [⟨"from", ParamType.address, true⟩] [Token.bool true]
      = Json.obj (([Token.bool true].enum).map
          (fun p => (argKey [⟨"from", ParamType.address, true⟩] p.1, token_to_json p.2))) :=
  c8_projection.1 [⟨"from", ParamType.address, true⟩] [Token.bool true] (by decide)

/-- A key is present in the association-list map exactly when some pair
carries it. -/
theorem lookupKV_isSome (m : List (Nat × Event)) (k : Nat) :
    (lookupKV m k).isSome ↔ ∃ p ∈ m, (p.1 == k) = true := by
  rw [lookupKV]
  rw [show (Option.map (fun p => p.2) (List.find? (fun p => p.1 == k) m)).isSome
      = (List.find? (fun p => p.1 == k) m).isSome by
    cases List.find? (fun p => p.1 == k) m <;> rfl]
  exact List.find?_isSome

/-- After inserting a key, that key is present in the map. -/
theorem lookupKV_insertKV_self (m : List (Nat × Event)) (k : Nat) (v : Event) :
    (lookupKV (insertKV m k v) k).isSome := by
  rw [insertKV]
  split_ifs with h
  · rw [List.any_eq_true] at h
    obtain ⟨p, hp, hb⟩ := h
    rw [lookupKV_isSome]
    exact ⟨(k, v), List.mem_map.mpr ⟨p, hp, by simp [hb]⟩, by simp⟩
  · rw [lookupKV_isSome]
    exact ⟨(k, v), by simp, by simp⟩

/-- Inserting one key preserves the presence of every key already in the
map. -/
theorem lookupKV_insertKV_mono (m : List (Nat × Event)) (k k' : Nat) (v : Event)
    (h : (lookupKV m k').isSome) : (lookupKV (insertKV m k v) k').isSome := by
  by_cases hk : k' = k
  · subst hk
    exact lookupKV_insertKV_self m k' v
  · rw [lookupKV_isSome] at h
    obtain ⟨x, hx, hb⟩ := h
    have hxk : (x.1 == k) = false := by
      rw [beq_iff_eq] at hb
      exact beq_eq_false_iff_ne.mpr (by rw [hb]; exact hk)
    rw [insertKV]
    split_ifs with hany
    · rw [lookupKV_isSome]
      exact ⟨x, List.mem_map.mpr ⟨x, hx, by simp [hxk]⟩, hb⟩
    · rw [lookupKV_isSome]
      exact ⟨x, by simp [hx], hb⟩

/-- Every event fed to the fold that builds the signature map ends up with
its signature key present in the resulting map. -/
theorem buildSigMap_covers (sig : Event → Nat) (events : List Event)
    (acc : List (Nat × Event)) (ev : Event)
    (h : ev ∈ events ∨ (lookupKV acc (sig ev)).isSome) :
    (lookupKV (events.foldl (fun m e => insertKV m (sig e) e) acc) (sig ev)).isSome := by
  induction events generalizing acc with
  | nil =>
    rcases h with h | h
    · cases h
    · simpa using h
  | cons e es ih =>
    rw [List.foldl_cons]
    apply ih
    rcases h with h | h
    · rcases List.mem_cons.mp h with heq | hmem
      · subst heq
        exact Or.inr (lookupKV_insertKV_self acc (sig ev) ev)
      · exact Or.inl hmem
    · exact Or.inr (lookupKV_insertKV_mono acc (sig e) (sig ev) e h)

/-- C10: confirmed.  Every event schema produced by parse_event_from_value
has its anonymous flag false, whatever the entry's anonymous field says,
and every loaded schema is entered into the dispatch map: its signature key
is present in the built map. -/
theorem c10_anonymous_false :
    (∀ (v : Json) (e : Event), parse_event_from_value v = some e → e.anonymous = false)
    ∧ (∀ (sig : Event → Nat) (events : List Event) (ev : Event), ev ∈ events →
        (lookupKV (buildSigMap sig events) (sig ev)).isSome) := by
  constructor
  · intro v e h
    rw [parse_event_from_value] at h
    split_ifs at h
    · split at h
      · exact absurd h (by simp)
      · split at h
        · exact absurd h (by simp)
        · obtain ⟨inputs, _, he⟩ := Option.map_eq_some'.mp h
          rw [← he]
  · intro sig events ev h
    exact buildSigMap_covers sig events [] ev (Or.inl h)

/-- C10: witness: a concrete parsed entry has anonymous false even though
the entry carries an anonymous true field, and its signature key is in the
one-event dispatch map. -/
theorem c10_witness :
    (Event.anonymous ⟨"A", [], false⟩ = false)
    ∧ (lookupKV (buildSigMap (fun _ => 7) [⟨"A", [], false⟩])
        ((fun _ => 7) (⟨"A", [], false⟩ : Event))).isSome :=
  ⟨c10_anonymous_false.1
      (Json.obj [("type", .str "event"), ("name", .str "A"), ("inputs", .arr []),
        ("anonymous", .bool true)])
      ⟨"A", [], false⟩ rfl,
    c10_anonymous_false.2 (fun _ => 7) [⟨"A", [], false⟩] ⟨"A", [], false⟩ (by simp)⟩
